import Mathlib

/-
Verification of the plugin configuration reconciler
(src/scripts/plugin-config-api.py) against its design specification.

The configuration document is the YAML tree stored in the ConfigMap; the
Python code manipulates it as nested dictionaries and lists.  We embed the
parts of the tree the reconciler touches as structures with optional
fields (a missing dictionary key is represented by Option.none), and
Python dictionaries whose key sets are dynamic as association lists with
dictionary-style insertion (update in place if the key is present,
append otherwise), mirroring insertion-ordered Python dict semantics.

Python list.remove removes only the first occurrence, which is exactly
List.erase; list.append is appending a singleton at the end.

The surrounding I/O (kubectl get / patch / rollout, file backup) is
modelled by an explicit Store state carrying the persisted document plus
three flags saying whether the external save, backup, and restart
operations succeed, and an event trace recording the order of the
external calls the code makes.
-/

namespace PluginConfig

/-- SUPPORTED_PLUGINS from the source (lines 34 to 47). -/
def SUPPORTED_PLUGINS : List String :=
  ["Rescheduler", "Coscheduling", "CapacityScheduling",
   "NodeResourceTopologyMatch", "NodeResourcesAllocatable",
   "TargetLoadPacking", "LoadVariationRiskBalancing",
   "PreemptionToleration", "PodState", "QoS", "SySched", "Trimaran"]

/-- PLUGIN_PHASES from the source (lines 49 to 59). -/
def PLUGIN_PHASES : List String :=
  ["filter", "score", "reserve", "preBind", "preFilter",
   "postFilter", "permit", "bind", "postBind"]

/-- Dictionary lookup on an association list: the value at the first
occurrence of the key, as in a Python dict read. -/
def lookupD {α : Type} (k : String) : List (String × α) → Option α
  | [] => none
  | (k2, v) :: rest => if k2 = k then some v else lookupD k rest

/-- Dictionary assignment on an association list: replace the value at the
first occurrence of the key, or append a new binding at the end, as in a
Python dict assignment on an insertion-ordered dict. -/
def insertD {α : Type} (k : String) (v : α) : List (String × α) → List (String × α)
  | [] => [(k, v)]
  | (k2, v2) :: rest =>
    if k2 = k then (k2, v) :: rest else (k2, v2) :: insertD k v rest

/-- Update the value stored at the first occurrence of the key, leaving the
list unchanged when the key is absent.  Models an in-place mutation of the
dictionary entry the Python code obtained by indexing. -/
def modifyD {α : Type} (k : String) (f : α → α) : List (String × α) → List (String × α)
  | [] => []
  | (k2, v) :: rest =>
    if k2 = k then (k2, f v) :: rest else (k2, v) :: modifyD k f rest

/-- One phase entry of profile.plugins: the dictionaries stored under a
phase name, with the enabled and disabled keys possibly absent. -/
structure PhaseConfig where
  enabled : Option (List String)
  disabled : Option (List String)
  deriving DecidableEq

/-- One entry of profile.pluginConfig, with the name and args keys
possibly absent. -/
structure PluginArgs (V : Type) where
  name : Option String
  args : Option (List (String × V))
  deriving DecidableEq

/-- One entry of the profiles list.  Argument values are opaque to the
reconciler, so the embedding is parametric in their type V. -/
structure Profile (V : Type) where
  schedulerName : Option String
  plugins : Option (List (String × PhaseConfig))
  pluginConfig : Option (List (PluginArgs V))
  deriving DecidableEq

/-- The configuration document.  Only the profiles key is ever read or
written by the reconciler; the other top-level keys are carried through
untouched and are therefore omitted from the embedding. -/
structure ConfigDocument (V : Type) where
  profiles : Option (List (Profile V))
  deriving DecidableEq

/-- Exceptions the mutation code can raise: ValueError for an unsupported
plugin or phase, IndexError for indexing an empty profiles list, KeyError
for a pluginConfig entry without a name in the status projection. -/
inductive MErr where
  | valueErrorPlugin (name : String)
  | valueErrorPhase (phase : String)
  | indexError
  | keyError
  deriving DecidableEq

/-- Tests whether an error is one of the two validation errors. -/
def isValidationError : MErr → Bool
  | MErr.valueErrorPlugin _ => true
  | MErr.valueErrorPhase _ => true
  | _ => false

/-- The default profile created by enable_plugin and disable_plugin when
the profiles key is absent (lines 178 to 179 and 230 to 231). -/
def defaultProfilePlugins (V : Type) : Profile V :=
  ⟨some "rescheduler-scheduler", some [], none⟩

/-- The default profile created by update_plugin_config when the profiles
key is absent (lines 275 to 276). -/
def defaultProfileConfig (V : Type) : Profile V :=
  ⟨some "rescheduler-scheduler", none, some []⟩

/-- The empty phase entry created when a phase is first touched
(lines 188 and 240). -/
def emptyPhase : PhaseConfig := ⟨some [], some []⟩

/-- The per-phase body of the enable loop (lines 190 to 201): default the
enabled and disabled keys to empty lists, append the plugin to enabled if
not already present, and remove its first occurrence from disabled if
present. -/
def enableInPhase (plugin : String) (pc : PhaseConfig) : PhaseConfig :=
  let en := pc.enabled.getD []
  let dis := pc.disabled.getD []
  ⟨some (if plugin ∈ en then en else en ++ [plugin]),
   some (if plugin ∈ dis then dis.erase plugin else dis)⟩

/-- The per-phase body of the disable loop (lines 242 to 253): symmetric to
enableInPhase. -/
def disableInPhase (plugin : String) (pc : PhaseConfig) : PhaseConfig :=
  let en := pc.enabled.getD []
  let dis := pc.disabled.getD []
  ⟨some (if plugin ∈ en then en.erase plugin else en),
   some (if plugin ∈ dis then dis else dis ++ [plugin])⟩

/-- One iteration of the enable loop over phases (lines 186 to 201):
create the phase entry if missing, then mutate it in place. -/
def enablePhaseStep (plugin : String) (d : List (String × PhaseConfig))
    (phase : String) : List (String × PhaseConfig) :=
  let d2 := match lookupD phase d with
    | none => insertD phase emptyPhase d
    | some _ => d
  modifyD phase (enableInPhase plugin) d2

/-- One iteration of the disable loop over phases (lines 238 to 253). -/
def disablePhaseStep (plugin : String) (d : List (String × PhaseConfig))
    (phase : String) : List (String × PhaseConfig) :=
  let d2 := match lookupD phase d with
    | none => insertD phase emptyPhase d
    | some _ => d
  modifyD phase (disableInPhase plugin) d2

/-- The document transformation performed by enable_plugin between loading
and saving the configuration (lines 175 to 201): default the profiles list,
index its first element (IndexError when the list is present but empty),
default the plugins mapping, and run the per-phase enable loop. -/
def enable_mut {V : Type} (plugin : String) (phases : List String)
    (config : ConfigDocument V) : Except MErr (ConfigDocument V) :=
  let profs := config.profiles.getD [defaultProfilePlugins V]
  match profs with
  | [] => Except.error MErr.indexError
  | p0 :: rest =>
    let d1 := phases.foldl (enablePhaseStep plugin) (p0.plugins.getD [])
    Except.ok ⟨some ({ p0 with plugins := some d1 } :: rest)⟩

/-- The document transformation performed by disable_plugin between loading
and saving the configuration (lines 227 to 253). -/
def disable_mut {V : Type} (plugin : String) (phases : List String)
    (config : ConfigDocument V) : Except MErr (ConfigDocument V) :=
  let profs := config.profiles.getD [defaultProfilePlugins V]
  match profs with
  | [] => Except.error MErr.indexError
  | p0 :: rest =>
    let d1 := phases.foldl (disablePhaseStep plugin) (p0.plugins.getD [])
    Except.ok ⟨some ({ p0 with plugins := some d1 } :: rest)⟩

/-- Set one argument key on a pluginConfig entry (lines 294 to 298):
default the args mapping and assign args at the key. -/
def setArg {V : Type} (key : String) (v : V) (pa : PluginArgs V) : PluginArgs V :=
  ⟨pa.name, some (insertD key v (pa.args.getD []))⟩

/-- The pluginConfig list transformation of update_plugin_config
(lines 282 to 298): find the first entry whose name equals the plugin,
mutate it in place; if none matches, append a fresh entry with empty args
and then assign the key on it. -/
def updatePCList {V : Type} (plugin key : String) (v : V) :
    List (PluginArgs V) → List (PluginArgs V)
  | [] => [⟨some plugin, some (insertD key v [])⟩]
  | pa :: rest =>
    if pa.name = some plugin then setArg key v pa :: rest
    else pa :: updatePCList plugin key v rest

/-- The document transformation performed by update_plugin_config between
loading and saving the configuration (lines 272 to 298).  Note the source
performs no catalog validation here. -/
def update_plugin_config_mut {V : Type} (plugin key : String) (v : V)
    (config : ConfigDocument V) : Except MErr (ConfigDocument V) :=
  let profs := config.profiles.getD [defaultProfileConfig V]
  match profs with
  | [] => Except.error MErr.indexError
  | p0 :: rest =>
    let pcs := updatePCList plugin key v (p0.pluginConfig.getD [])
    Except.ok ⟨some ({ p0 with pluginConfig := some pcs } :: rest)⟩

/-- The read-only status projection built by get_plugin_status
(lines 315 to 341). -/
structure StatusSnapshot (V : Type) where
  enabled_plugins : List (String × List String)
  disabled_plugins : List (String × List String)
  plugin_configs : List (String × List (String × V))
  deriving DecidableEq

/-- The per-phase part of the status projection (lines 329 to 334): for
each phase entry, copy the selected list into the status dictionary when
the corresponding key is present. -/
def statusPhaseFold (sel : PhaseConfig → Option (List String))
    (entries : List (String × PhaseConfig)) : List (String × List String) :=
  entries.foldl (fun acc e =>
    match sel e.2 with
    | some l => insertD e.1 l acc
    | none => acc) []

/-- The pluginConfig part of the status projection (lines 337 to 339):
indexing the name key raises KeyError when it is absent; the args key is
defaulted to an empty mapping. -/
def statusConfigFold {V : Type} (entries : List (PluginArgs V)) :
    Except MErr (List (String × List (String × V))) :=
  entries.foldlM (fun acc pa =>
    match pa.name with
    | none => Except.error MErr.keyError
    | some n => Except.ok (insertD n (pa.args.getD []) acc)) []

/-- get_plugin_status (lines 315 to 341): empty status when the profiles
key is absent or the list is empty, else a projection of the first
profile. -/
def get_plugin_status {V : Type} (config : ConfigDocument V) :
    Except MErr (StatusSnapshot V) :=
  match config.profiles.getD [] with
  | [] => Except.ok ⟨[], [], []⟩
  | p0 :: _ =>
    match statusConfigFold (p0.pluginConfig.getD []) with
    | Except.error e => Except.error e
    | Except.ok pcs =>
      Except.ok ⟨statusPhaseFold PhaseConfig.enabled (p0.plugins.getD []),
                 statusPhaseFold PhaseConfig.disabled (p0.plugins.getD []), pcs⟩

/-- External calls the reconciler makes, in order: read the ConfigMap,
attempt the backup (recording whether the attempt succeeded, since a
failure is only logged), patch the ConfigMap, and trigger the rollout
restart. -/
inductive Event where
  | getConfig
  | backupAttempt (ok : Bool)
  | put
  | restartCmd
  deriving DecidableEq

/-- State of the external world: the persisted document plus flags fixing
whether the save, the backup, and the restart would succeed. -/
structure Store (V : Type) where
  doc : ConfigDocument V
  saveOk : Bool
  backupOk : Bool
  restartOk : Bool
  deriving DecidableEq

/-- backup_config (lines 120 to 137): attempts the timestamped snapshot
and swallows any failure, logging it; the caller observes nothing. -/
def backup_config {V : Type} (st : Store V) : List Event :=
  [Event.backupAttempt st.backupOk]

/-- Result of update_config: the boolean the Python function returns, the
new world state, and the trace of external calls. -/
structure UCResult (V : Type) where
  ok : Bool
  store : Store V
  events : List Event
  deriving DecidableEq

/-- update_config (lines 89 to 118): unconditionally run backup_config
first, then patch the ConfigMap; return False on a patch failure. -/
def update_config {V : Type} (st : Store V) (newDoc : ConfigDocument V) : UCResult V :=
  let evs := backup_config st ++ [Event.put]
  if st.saveOk then ⟨true, { st with doc := newDoc }, evs⟩
  else ⟨false, st, evs⟩

instance {ε α : Type} [DecidableEq ε] [DecidableEq α] : DecidableEq (Except ε α) := fun a b =>
  match a, b with
  | Except.error e1, Except.error e2 =>
    if h : e1 = e2 then isTrue (by rw [h]) else isFalse (by intro hc; cases hc; exact h rfl)
  | Except.error _, Except.ok _ => isFalse (by intro hc; cases hc)
  | Except.ok _, Except.error _ => isFalse (by intro hc; cases hc)
  | Except.ok v1, Except.ok v2 =>
    if h : v1 = v2 then isTrue (by rw [h]) else isFalse (by intro hc; cases hc; exact h rfl)

/-- Result of one full mutation request: the raised exception or returned
status string, the final world state, and the trace of external calls. -/
structure RunResult (V : Type) where
  outcome : Except MErr String
  store : Store V
  events : List Event
  deriving DecidableEq

/-- The shared load, mutate, save, restart orchestration of enable_plugin,
disable_plugin and update_plugin_config (lines 175, 204 to 216, 227,
256 to 268, 272, 300 to 313): read the config, apply the in-memory
mutation, save via update_config, and on a successful save trigger the
restart, whose own result is ignored; the returned status is success
exactly when the save succeeded. -/
def runMutation {V : Type} (st : Store V)
    (mutFn : ConfigDocument V → Except MErr (ConfigDocument V)) : RunResult V :=
  match mutFn st.doc with
  | Except.error e => ⟨Except.error e, st, [Event.getConfig]⟩
  | Except.ok newDoc =>
    let r := update_config st newDoc
    if r.ok then
      ⟨Except.ok "success", r.store, Event.getConfig :: r.events ++ [Event.restartCmd]⟩
    else
      ⟨Except.ok "error", r.store, Event.getConfig :: r.events⟩

/-- The phase-list validation loop of enable_plugin and disable_plugin
(lines 171 to 173 and 223 to 225): the first unsupported phase, if any. -/
def validatePhases (phases : List String) : Option String :=
  phases.find? (fun ph => decide (ph ∉ PLUGIN_PHASES))

/-- enable_plugin (lines 166 to 216): validate the plugin name and the
whole phase list before any I/O, then run the orchestration. -/
def enable_plugin_run {V : Type} (st : Store V) (plugin : String)
    (phases : List String) : RunResult V :=
  if plugin ∉ SUPPORTED_PLUGINS then
    ⟨Except.error (MErr.valueErrorPlugin plugin), st, []⟩
  else
    match validatePhases phases with
    | some ph => ⟨Except.error (MErr.valueErrorPhase ph), st, []⟩
    | none => runMutation st (enable_mut plugin phases)

/-- disable_plugin (lines 218 to 268): same validation, then the
orchestration around disable_mut. -/
def disable_plugin_run {V : Type} (st : Store V) (plugin : String)
    (phases : List String) : RunResult V :=
  if plugin ∉ SUPPORTED_PLUGINS then
    ⟨Except.error (MErr.valueErrorPlugin plugin), st, []⟩
  else
    match validatePhases phases with
    | some ph => ⟨Except.error (MErr.valueErrorPhase ph), st, []⟩
    | none => runMutation st (disable_mut plugin phases)

/-- update_plugin_config (lines 270 to 313): no validation at all, just
the orchestration around update_plugin_config_mut. -/
def update_plugin_config_run {V : Type} (st : Store V) (plugin key : String)
    (v : V) : RunResult V :=
  runMutation st (update_plugin_config_mut plugin key v)

/-- An enable or disable request, for reasoning about request sequences. -/
inductive Op where
  | enable (plugin : String) (phases : List String)
  | disable (plugin : String) (phases : List String)
  deriving DecidableEq

/-- Validity of a request against the static catalogs. -/
def isValidOp : Op → Bool
  | Op.enable p l =>
    decide (p ∈ SUPPORTED_PLUGINS) && l.all (fun ph => decide (ph ∈ PLUGIN_PHASES))
  | Op.disable p l =>
    decide (p ∈ SUPPORTED_PLUGINS) && l.all (fun ph => decide (ph ∈ PLUGIN_PHASES))

/-- A store in which every external operation succeeds. -/
def allOkStore {V : Type} (doc : ConfigDocument V) : Store V := ⟨doc, true, true, true⟩

/-- The persisted document after serving one request against a healthy
store. -/
def applyOp {V : Type} (doc : ConfigDocument V) : Op → ConfigDocument V
  | Op.enable p l => (enable_plugin_run (allOkStore doc) p l).store.doc
  | Op.disable p l => (disable_plugin_run (allOkStore doc) p l).store.doc

/-- The persisted document after serving a sequence of requests. -/
def applyOps {V : Type} (doc : ConfigDocument V) (ops : List Op) : ConfigDocument V :=
  ops.foldl applyOp doc

/-- Consistency of one phase entry: both lists duplicate-free and no
plugin in both. -/
def phaseInv (pc : PhaseConfig) : Prop :=
  (pc.enabled.getD []).Nodup ∧ (pc.disabled.getD []).Nodup ∧
  ∀ x ∈ pc.enabled.getD [], x ∉ pc.disabled.getD []

instance : DecidablePred phaseInv := fun pc => by
  unfold phaseInv; infer_instance

/-- Consistency of every phase entry of a profile. -/
def profileInv {V : Type} (p : Profile V) : Prop :=
  ∀ e ∈ p.plugins.getD [], phaseInv e.2

instance {V : Type} : DecidablePred (profileInv (V := V)) := fun p => by
  unfold profileInv; infer_instance

/-- Consistency of every phase of every profile of a document. -/
def docInv {V : Type} (doc : ConfigDocument V) : Prop :=
  ∀ p ∈ doc.profiles.getD [], profileInv p

instance {V : Type} : DecidablePred (docInv (V := V)) := fun doc => by
  unfold docInv; infer_instance

/-- The mutual-exclusion property alone, as the specification states it:
no plugin both enabled and disabled for the same phase. -/
def phaseMutEx (pc : PhaseConfig) : Prop :=
  ∀ x ∈ pc.enabled.getD [], x ∉ pc.disabled.getD []

instance : DecidablePred phaseMutEx := fun pc => by
  unfold phaseMutEx; infer_instance

/-- Mutual exclusion for every phase of every profile. -/
def docMutEx {V : Type} (doc : ConfigDocument V) : Prop :=
  ∀ p ∈ doc.profiles.getD [], ∀ e ∈ p.plugins.getD [], phaseMutEx e.2

instance {V : Type} : DecidablePred (docMutEx (V := V)) := fun doc => by
  unfold docMutEx; infer_instance

/-- The first profile of a document, as read by the mutations. -/
def firstProfile {V : Type} (doc : ConfigDocument V) : Option (Profile V) :=
  (doc.profiles.getD []).head?

/-- The enabled list recorded for a phase in the first profile, empty when
any key on the path is absent. -/
def phaseEnabled {V : Type} (doc : ConfigDocument V) (ph : String) : List String :=
  match firstProfile doc with
  | none => []
  | some p =>
    match lookupD ph (p.plugins.getD []) with
    | none => []
    | some pc => pc.enabled.getD []

/-- The disabled list recorded for a phase in the first profile. -/
def phaseDisabled {V : Type} (doc : ConfigDocument V) (ph : String) : List String :=
  match firstProfile doc with
  | none => []
  | some p =>
    match lookupD ph (p.plugins.getD []) with
    | none => []
    | some pc => pc.disabled.getD []

/-- State of a phase entry after the plugin has been enabled in it: both
keys present, the plugin in enabled and not in disabled. -/
def enabledPost (plugin : String) (pc : PhaseConfig) : Prop :=
  ∃ en dis, pc = ⟨some en, some dis⟩ ∧ plugin ∈ en ∧ plugin ∉ dis

/-- State of a phase entry after the plugin has been disabled in it. -/
def disabledPost (plugin : String) (pc : PhaseConfig) : Prop :=
  ∃ en dis, pc = ⟨some en, some dis⟩ ∧ plugin ∉ en ∧ plugin ∈ dis

/-- The name key is present on every pluginConfig entry of the list. -/
def namesPresent {V : Type} (l : List (PluginArgs V)) : Prop :=
  ∀ pa ∈ l, pa.name.isSome = true

instance {V : Type} : DecidablePred (namesPresent (V := V)) := fun l => by
  unfold namesPresent; infer_instance

/-- Number of pluginConfig entries of the list carrying the given name. -/
def pluginCount {V : Type} (plugin : String) (l : List (PluginArgs V)) : Nat :=
  l.countP (fun pa => decide (pa.name = some plugin))

/-- Status fold over pluginConfig entries starting from an arbitrary
accumulated dictionary; statusConfigFold is the instance started from the
empty dictionary. -/
def statusConfigFoldAcc {V : Type} (entries : List (PluginArgs V))
    (acc : List (String × List (String × V))) :
    Except MErr (List (String × List (String × V))) :=
  entries.foldlM (fun a pa =>
    match pa.name with
    | none => Except.error MErr.keyError
    | some n => Except.ok (insertD n (pa.args.getD []) a)) acc

/-- A document whose only phase entry has a duplicated name in its
disabled list; its enabled and disabled lists are still disjoint. -/
def dupDisabledDoc : ConfigDocument Int :=
  ⟨some [⟨some "s", some [("filter", ⟨some [], some ["QoS", "QoS"]⟩)], none⟩]⟩

/-- A document whose only phase entry has a duplicated name in its
enabled list. -/
def dupEnabledDoc : ConfigDocument Int :=
  ⟨some [⟨some "s", some [("filter", ⟨some ["QoS", "QoS"], some []⟩)], none⟩]⟩

/-- The document with no profiles key at all. -/
def emptyDoc : ConfigDocument Int := ⟨none⟩

/-- A healthy store holding the empty document. -/
def okStore : Store Int := allOkStore emptyDoc

/-- A store in which the save succeeds but the rollout restart fails. -/
def restartFailStore : Store Int := ⟨emptyDoc, true, true, false⟩

/-- A healthy store whose document has the profiles key bound to the
empty list. -/
def emptyProfilesStore : Store Int := allOkStore ⟨some []⟩

/-- A sample sequence of valid requests. -/
def sampleOps : List Op :=
  [Op.enable "QoS" ["filter", "score"], Op.disable "Coscheduling" ["bind"],
   Op.disable "QoS" ["filter"]]

/-- The document produced by the first sample argument update of the
Coscheduling scenario. -/
def cosched1 : ConfigDocument Int :=
  ⟨some [⟨some "rescheduler-scheduler", none,
         some [⟨some "Coscheduling", some [("maxScore", 100)]⟩]⟩]⟩

/-- The document produced by the second sample argument update. -/
def cosched2 : ConfigDocument Int :=
  ⟨some [⟨some "rescheduler-scheduler", none,
         some [⟨some "Coscheduling", some [("maxScore", 50)]⟩]⟩]⟩

/-- The document produced by enabling QoS in filter and score starting
from the empty document. -/
def qosEnabledDoc : ConfigDocument Int :=
  ⟨some [⟨some "rescheduler-scheduler",
    some [("filter", ⟨some ["QoS"], some []⟩), ("score", ⟨some ["QoS"], some []⟩)],
    none⟩]⟩

/-- The document produced by disabling QoS in filter and score starting
from the empty document. -/
def qosDisabledDoc : ConfigDocument Int :=
  ⟨some [⟨some "rescheduler-scheduler",
    some [("filter", ⟨some [], some ["QoS"]⟩), ("score", ⟨some [], some ["QoS"]⟩)],
    none⟩]⟩

theorem lookupD_insertD_self {α : Type} (k : String) (v : α) (d : List (String × α)) :
    lookupD k (insertD k v d) = some v := by
  induction d with
  | nil => simp [insertD, lookupD]
  | cons e rest ih =>
    obtain ⟨k2, v2⟩ := e
    by_cases h : k2 = k
    · simp [insertD, lookupD, h]
    · simp [insertD, lookupD, h, ih]

theorem lookupD_insertD_ne {α : Type} {j k : String} (h : j ≠ k) (v : α)
    (d : List (String × α)) : lookupD k (insertD j v d) = lookupD k d := by
  induction d with
  | nil => simp [insertD, lookupD, h]
  | cons e rest ih =>
    obtain ⟨k2, v2⟩ := e
    by_cases h2 : k2 = j
    · subst h2; simp [insertD, lookupD, h]
    · simp [insertD, lookupD, h2, ih]

theorem lookupD_modifyD_self {α : Type} (k : String) (f : α → α)
    (d : List (String × α)) : lookupD k (modifyD k f d) = (lookupD k d).map f := by
  induction d with
  | nil => simp [modifyD, lookupD]
  | cons e rest ih =>
    obtain ⟨k2, v2⟩ := e
    by_cases h : k2 = k
    · simp [modifyD, lookupD, h]
    · simp [modifyD, lookupD, h, ih]

theorem lookupD_modifyD_ne {α : Type} {j k : String} (h : j ≠ k) (f : α → α)
    (d : List (String × α)) : lookupD k (modifyD j f d) = lookupD k d := by
  induction d with
  | nil => simp [modifyD, lookupD]
  | cons e rest ih =>
    obtain ⟨k2, v2⟩ := e
    by_cases h2 : k2 = j
    · subst h2; simp [modifyD, lookupD, h]
    · simp [modifyD, lookupD, h2, ih]

theorem lookupD_mem {α : Type} {k : String} {v : α} {d : List (String × α)}
    (h : lookupD k d = some v) : (k, v) ∈ d := by
  induction d with
  | nil => simp [lookupD] at h
  | cons e rest ih =>
    obtain ⟨k2, v2⟩ := e
    by_cases h2 : k2 = k
    · subst h2
      simp [lookupD] at h
      subst h
      exact List.mem_cons_self _ _
    · simp only [lookupD, if_neg h2] at h
      exact List.mem_cons_of_mem _ (ih h)

theorem modifyD_eq_self {α : Type} {k : String} {v : α} {d : List (String × α)}
    (f : α → α) (hl : lookupD k d = some v) (hf : f v = v) : modifyD k f d = d := by
  induction d with
  | nil => rfl
  | cons e rest ih =>
    obtain ⟨k2, v2⟩ := e
    by_cases h2 : k2 = k
    · subst h2
      simp [lookupD] at hl
      subst hl
      simp [modifyD, hf]
    · simp only [lookupD, if_neg h2] at hl
      simp [modifyD, h2, ih hl]

theorem insertD_entries {α : Type} {P : α → Prop} {d : List (String × α)}
    {k : String} {v : α} (hd : ∀ e ∈ d, P e.2) (hv : P v) :
    ∀ e ∈ insertD k v d, P e.2 := by
  induction d with
  | nil =>
    intro e he
    simp [insertD] at he
    subst he; exact hv
  | cons e0 rest ih =>
    obtain ⟨k2, v2⟩ := e0
    intro e he
    by_cases h2 : k2 = k
    · simp only [insertD, if_pos h2] at he
      rcases List.mem_cons.mp he with rfl | hm
      · exact hv
      · exact hd e (List.mem_cons_of_mem _ hm)
    · simp only [insertD, if_neg h2] at he
      rcases List.mem_cons.mp he with rfl | hm
      · exact hd (k2, v2) (List.mem_cons_self _ _)
      · exact ih (fun e2 he2 => hd e2 (List.mem_cons_of_mem _ he2)) e hm

theorem modifyD_entries {α : Type} {P : α → Prop} {d : List (String × α)}
    {k : String} {f : α → α} (hd : ∀ e ∈ d, P e.2)
    (hf : ∀ x, P x → P (f x)) : ∀ e ∈ modifyD k f d, P e.2 := by
  induction d with
  | nil => intro e he; simp [modifyD] at he
  | cons e0 rest ih =>
    obtain ⟨k2, v2⟩ := e0
    intro e he
    by_cases h2 : k2 = k
    · simp only [modifyD, if_pos h2] at he
      rcases List.mem_cons.mp he with rfl | hm
      · exact hf v2 (hd (k2, v2) (List.mem_cons_self _ _))
      · exact hd e (List.mem_cons_of_mem _ hm)
    · simp only [modifyD, if_neg h2] at he
      rcases List.mem_cons.mp he with rfl | hm
      · exact hd (k2, v2) (List.mem_cons_self _ _)
      · exact ih (fun e2 he2 => hd e2 (List.mem_cons_of_mem _ he2)) e hm

theorem validatePhases_none {phases : List String}
    (h : ∀ ph ∈ phases, ph ∈ PLUGIN_PHASES) : validatePhases phases = none := by
  unfold validatePhases
  rw [List.find?_eq_none]
  intro x hx
  simp [h x hx]

theorem validatePhases_some {phases : List String} {ph : String} (hm : ph ∈ phases)
    (hn : ph ∉ PLUGIN_PHASES) : ∃ ph2, validatePhases phases = some ph2 := by
  have hs : (validatePhases phases).isSome := by
    unfold validatePhases
    rw [List.find?_isSome]
    exact ⟨ph, hm, by simp [hn]⟩
  exact Option.isSome_iff_exists.mp hs

theorem enablePhaseStep_none {plugin ph : String} {d : List (String × PhaseConfig)}
    (h : lookupD ph d = none) :
    enablePhaseStep plugin d ph = modifyD ph (enableInPhase plugin) (insertD ph emptyPhase d) := by
  simp [enablePhaseStep, h]

theorem enablePhaseStep_some {plugin ph : String} {d : List (String × PhaseConfig)}
    {pc : PhaseConfig} (h : lookupD ph d = some pc) :
    enablePhaseStep plugin d ph = modifyD ph (enableInPhase plugin) d := by
  simp [enablePhaseStep, h]

theorem disablePhaseStep_none {plugin ph : String} {d : List (String × PhaseConfig)}
    (h : lookupD ph d = none) :
    disablePhaseStep plugin d ph = modifyD ph (disableInPhase plugin) (insertD ph emptyPhase d) := by
  simp [disablePhaseStep, h]

theorem disablePhaseStep_some {plugin ph : String} {d : List (String × PhaseConfig)}
    {pc : PhaseConfig} (h : lookupD ph d = some pc) :
    disablePhaseStep plugin d ph = modifyD ph (disableInPhase plugin) d := by
  simp [disablePhaseStep, h]

theorem emptyPhase_inv : phaseInv emptyPhase := by
  refine ⟨List.nodup_nil, List.nodup_nil, ?_⟩
  intro x hx
  cases hx

theorem enable_lists_inv {plugin : String} {en dis : List String} (hen : en.Nodup)
    (hdis : dis.Nodup) (hdisj : ∀ x ∈ en, x ∉ dis) :
    (if plugin ∈ en then en else en ++ [plugin]).Nodup ∧
    (if plugin ∈ dis then dis.erase plugin else dis).Nodup ∧
    ∀ x ∈ (if plugin ∈ en then en else en ++ [plugin]),
      x ∉ (if plugin ∈ dis then dis.erase plugin else dis) := by
  refine ⟨?_, ?_, ?_⟩
  · by_cases hm : plugin ∈ en
    · rwa [if_pos hm]
    · rw [if_neg hm, List.nodup_append]
      exact ⟨hen, List.nodup_singleton _, by simp [List.disjoint_singleton, hm]⟩
  · by_cases hm : plugin ∈ dis
    · rw [if_pos hm]
      exact hdis.erase plugin
    · rwa [if_neg hm]
  · intro x hx hx2
    have hxdis : x ∈ dis := by
      by_cases hm2 : plugin ∈ dis
      · rw [if_pos hm2] at hx2
        exact List.mem_of_mem_erase hx2
      · rwa [if_neg hm2] at hx2
    by_cases hm : plugin ∈ en
    · rw [if_pos hm] at hx
      exact hdisj x hx hxdis
    · rw [if_neg hm] at hx
      rcases List.mem_append.mp hx with hx3 | hx3
      · exact hdisj x hx3 hxdis
      · have hxp : x = plugin := by simpa using hx3
        by_cases hm2 : plugin ∈ dis
        · rw [if_pos hm2, hxp] at hx2
          exact (hdis.mem_erase_iff.mp hx2).1 rfl
        · rw [if_neg hm2, hxp] at hx2
          exact hm2 hx2

theorem enableInPhase_inv {plugin : String} {pc : PhaseConfig} (h : phaseInv pc) :
    phaseInv (enableInPhase plugin pc) :=
  enable_lists_inv h.1 h.2.1 h.2.2

theorem disable_lists_inv {plugin : String} {en dis : List String} (hen : en.Nodup)
    (hdis : dis.Nodup) (hdisj : ∀ x ∈ en, x ∉ dis) :
    (if plugin ∈ en then en.erase plugin else en).Nodup ∧
    (if plugin ∈ dis then dis else dis ++ [plugin]).Nodup ∧
    ∀ x ∈ (if plugin ∈ en then en.erase plugin else en),
      x ∉ (if plugin ∈ dis then dis else dis ++ [plugin]) := by
  refine ⟨?_, ?_, ?_⟩
  · by_cases hm : plugin ∈ en
    · rw [if_pos hm]
      exact hen.erase plugin
    · rwa [if_neg hm]
  · by_cases hm : plugin ∈ dis
    · rwa [if_pos hm]
    · rw [if_neg hm, List.nodup_append]
      exact ⟨hdis, List.nodup_singleton _, by simp [List.disjoint_singleton, hm]⟩
  · intro x hx hx2
    have hxen : x ∈ en := by
      by_cases hm : plugin ∈ en
      · rw [if_pos hm] at hx
        exact List.mem_of_mem_erase hx
      · rwa [if_neg hm] at hx
    by_cases hm2 : plugin ∈ dis
    · rw [if_pos hm2] at hx2
      exact hdisj x hxen hx2
    · rw [if_neg hm2] at hx2
      rcases List.mem_append.mp hx2 with hx3 | hx3
      · exact hdisj x hxen hx3
      · have hxp : x = plugin := by simpa using hx3
        by_cases hm : plugin ∈ en
        · rw [if_pos hm, hxp] at hx
          exact (hen.mem_erase_iff.mp hx).1 rfl
        · rw [if_neg hm, hxp] at hx
          exact hm hx

theorem disableInPhase_inv {plugin : String} {pc : PhaseConfig} (h : phaseInv pc) :
    phaseInv (disableInPhase plugin pc) :=
  disable_lists_inv h.1 h.2.1 h.2.2

theorem enable_lists_post {plugin : String} {en dis : List String}
    (hc : dis.count plugin ≤ 1) :
    plugin ∈ (if plugin ∈ en then en else en ++ [plugin]) ∧
    plugin ∉ (if plugin ∈ dis then dis.erase plugin else dis) := by
  constructor
  · by_cases hm : plugin ∈ en <;> simp [hm]
  · by_cases hm : plugin ∈ dis
    · rw [if_pos hm, ← List.count_eq_zero, List.count_erase_self]
      have hpos : 0 < dis.count plugin := List.count_pos_iff.mpr hm
      omega
    · rwa [if_neg hm]

theorem enableInPhase_post {plugin : String} {pc : PhaseConfig}
    (hc : (pc.disabled.getD []).count plugin ≤ 1) :
    enabledPost plugin (enableInPhase plugin pc) := by
  obtain ⟨h1, h2⟩ := @enable_lists_post plugin (pc.enabled.getD []) (pc.disabled.getD []) hc
  exact ⟨_, _, rfl, h1, h2⟩

theorem disable_lists_post {plugin : String} {en dis : List String}
    (hc : en.count plugin ≤ 1) :
    plugin ∉ (if plugin ∈ en then en.erase plugin else en) ∧
    plugin ∈ (if plugin ∈ dis then dis else dis ++ [plugin]) := by
  constructor
  · by_cases hm : plugin ∈ en
    · rw [if_pos hm, ← List.count_eq_zero, List.count_erase_self]
      have hpos : 0 < en.count plugin := List.count_pos_iff.mpr hm
      omega
    · rwa [if_neg hm]
  · by_cases hm : plugin ∈ dis <;> simp [hm]

theorem disableInPhase_post {plugin : String} {pc : PhaseConfig}
    (hc : (pc.enabled.getD []).count plugin ≤ 1) :
    disabledPost plugin (disableInPhase plugin pc) := by
  obtain ⟨h1, h2⟩ := @disable_lists_post plugin (pc.enabled.getD []) (pc.disabled.getD []) hc
  exact ⟨_, _, rfl, h1, h2⟩

theorem enableInPhase_id {plugin : String} {pc : PhaseConfig}
    (h : enabledPost plugin pc) : enableInPhase plugin pc = pc := by
  obtain ⟨en, dis, rfl, hin, hout⟩ := h
  simp [enableInPhase, hin, hout]

theorem disableInPhase_id {plugin : String} {pc : PhaseConfig}
    (h : disabledPost plugin pc) : disableInPhase plugin pc = pc := by
  obtain ⟨en, dis, rfl, hin, hout⟩ := h
  simp [disableInPhase, hin, hout]

theorem enableInPhase_count {plugin : String} {pc : PhaseConfig}
    (hc : (pc.disabled.getD []).count plugin ≤ 1) :
    ((enableInPhase plugin pc).disabled.getD []).count plugin ≤ 1 := by
  show (if plugin ∈ pc.disabled.getD [] then (pc.disabled.getD []).erase plugin
        else pc.disabled.getD []).count plugin ≤ 1
  by_cases hm : plugin ∈ pc.disabled.getD []
  · rw [if_pos hm, List.count_erase_self]
    omega
  · rwa [if_neg hm]

theorem disableInPhase_count {plugin : String} {pc : PhaseConfig}
    (hc : (pc.enabled.getD []).count plugin ≤ 1) :
    ((disableInPhase plugin pc).enabled.getD []).count plugin ≤ 1 := by
  show (if plugin ∈ pc.enabled.getD [] then (pc.enabled.getD []).erase plugin
        else pc.enabled.getD []).count plugin ≤ 1
  by_cases hm : plugin ∈ pc.enabled.getD []
  · rw [if_pos hm, List.count_erase_self]
    omega
  · rwa [if_neg hm]

theorem enablePhaseStep_entries {plugin : String} {d : List (String × PhaseConfig)}
    (hd : ∀ e ∈ d, phaseInv e.2) (ph : String) :
    ∀ e ∈ enablePhaseStep plugin d ph, phaseInv e.2 := by
  cases h : lookupD ph d with
  | none =>
    rw [enablePhaseStep_none h]
    exact modifyD_entries (insertD_entries hd emptyPhase_inv)
      (fun x hx => enableInPhase_inv hx)
  | some pc =>
    rw [enablePhaseStep_some h]
    exact modifyD_entries hd (fun x hx => enableInPhase_inv hx)

theorem disablePhaseStep_entries {plugin : String} {d : List (String × PhaseConfig)}
    (hd : ∀ e ∈ d, phaseInv e.2) (ph : String) :
    ∀ e ∈ disablePhaseStep plugin d ph, phaseInv e.2 := by
  cases h : lookupD ph d with
  | none =>
    rw [disablePhaseStep_none h]
    exact modifyD_entries (insertD_entries hd emptyPhase_inv)
      (fun x hx => disableInPhase_inv hx)
  | some pc =>
    rw [disablePhaseStep_some h]
    exact modifyD_entries hd (fun x hx => disableInPhase_inv hx)

theorem enablePhaseStep_count {plugin : String} {d : List (String × PhaseConfig)}
    (hc : ∀ e ∈ d, (e.2.disabled.getD []).count plugin ≤ 1) (ph : String) :
    ∀ e ∈ enablePhaseStep plugin d ph, (e.2.disabled.getD []).count plugin ≤ 1 := by
  cases h : lookupD ph d with
  | none =>
    rw [enablePhaseStep_none h]
    refine modifyD_entries (insertD_entries hc ?_)
      (fun (x : PhaseConfig) (hx : (x.disabled.getD []).count plugin ≤ 1) => enableInPhase_count hx)
    simp [emptyPhase]
  | some pc =>
    rw [enablePhaseStep_some h]
    exact modifyD_entries hc
      (fun (x : PhaseConfig) (hx : (x.disabled.getD []).count plugin ≤ 1) => enableInPhase_count hx)

theorem disablePhaseStep_count {plugin : String} {d : List (String × PhaseConfig)}
    (hc : ∀ e ∈ d, (e.2.enabled.getD []).count plugin ≤ 1) (ph : String) :
    ∀ e ∈ disablePhaseStep plugin d ph, (e.2.enabled.getD []).count plugin ≤ 1 := by
  cases h : lookupD ph d with
  | none =>
    rw [disablePhaseStep_none h]
    refine modifyD_entries (insertD_entries hc ?_)
      (fun (x : PhaseConfig) (hx : (x.enabled.getD []).count plugin ≤ 1) => disableInPhase_count hx)
    simp [emptyPhase]
  | some pc =>
    rw [disablePhaseStep_some h]
    exact modifyD_entries hc
      (fun (x : PhaseConfig) (hx : (x.enabled.getD []).count plugin ≤ 1) => disableInPhase_count hx)

theorem enablePhaseStep_post {plugin : String} {d : List (String × PhaseConfig)}
    (hc : ∀ e ∈ d, (e.2.disabled.getD []).count plugin ≤ 1) (ph : String) :
    ∃ pc, lookupD ph (enablePhaseStep plugin d ph) = some pc ∧ enabledPost plugin pc := by
  cases h : lookupD ph d with
  | none =>
    refine ⟨enableInPhase plugin emptyPhase, ?_, ?_⟩
    · rw [enablePhaseStep_none h, lookupD_modifyD_self, lookupD_insertD_self]
      rfl
    · exact enableInPhase_post (by simp [emptyPhase])
  | some pc0 =>
    refine ⟨enableInPhase plugin pc0, ?_, ?_⟩
    · rw [enablePhaseStep_some h, lookupD_modifyD_self, h]
      rfl
    · exact enableInPhase_post (hc (ph, pc0) (lookupD_mem h))

theorem disablePhaseStep_post {plugin : String} {d : List (String × PhaseConfig)}
    (hc : ∀ e ∈ d, (e.2.enabled.getD []).count plugin ≤ 1) (ph : String) :
    ∃ pc, lookupD ph (disablePhaseStep plugin d ph) = some pc ∧ disabledPost plugin pc := by
  cases h : lookupD ph d with
  | none =>
    refine ⟨disableInPhase plugin emptyPhase, ?_, ?_⟩
    · rw [disablePhaseStep_none h, lookupD_modifyD_self, lookupD_insertD_self]
      rfl
    · exact disableInPhase_post (by simp [emptyPhase])
  | some pc0 =>
    refine ⟨disableInPhase plugin pc0, ?_, ?_⟩
    · rw [disablePhaseStep_some h, lookupD_modifyD_self, h]
      rfl
    · exact disableInPhase_post (hc (ph, pc0) (lookupD_mem h))

theorem enablePhaseStep_keep {plugin : String} {d : List (String × PhaseConfig)}
    {k : String} {pc : PhaseConfig} (hl : lookupD k d = some pc)
    (hp : enabledPost plugin pc) (ph : String) :
    lookupD k (enablePhaseStep plugin d ph) = some pc := by
  by_cases hk : ph = k
  · subst hk
    rw [enablePhaseStep_some hl, lookupD_modifyD_self, hl]
    simp [enableInPhase_id hp]
  · cases h : lookupD ph d with
    | none =>
      rw [enablePhaseStep_none h, lookupD_modifyD_ne hk, lookupD_insertD_ne hk, hl]
    | some _ =>
      rw [enablePhaseStep_some h, lookupD_modifyD_ne hk, hl]

theorem disablePhaseStep_keep {plugin : String} {d : List (String × PhaseConfig)}
    {k : String} {pc : PhaseConfig} (hl : lookupD k d = some pc)
    (hp : disabledPost plugin pc) (ph : String) :
    lookupD k (disablePhaseStep plugin d ph) = some pc := by
  by_cases hk : ph = k
  · subst hk
    rw [disablePhaseStep_some hl, lookupD_modifyD_self, hl]
    simp [disableInPhase_id hp]
  · cases h : lookupD ph d with
    | none =>
      rw [disablePhaseStep_none h, lookupD_modifyD_ne hk, lookupD_insertD_ne hk, hl]
    | some _ =>
      rw [disablePhaseStep_some h, lookupD_modifyD_ne hk, hl]

theorem enableFold_entries {plugin : String} {phases : List String}
    {d : List (String × PhaseConfig)} (hd : ∀ e ∈ d, phaseInv e.2) :
    ∀ e ∈ phases.foldl (enablePhaseStep plugin) d, phaseInv e.2 := by
  induction phases generalizing d with
  | nil => exact hd
  | cons h t ih => exact ih (enablePhaseStep_entries hd h)

theorem disableFold_entries {plugin : String} {phases : List String}
    {d : List (String × PhaseConfig)} (hd : ∀ e ∈ d, phaseInv e.2) :
    ∀ e ∈ phases.foldl (disablePhaseStep plugin) d, phaseInv e.2 := by
  induction phases generalizing d with
  | nil => exact hd
  | cons h t ih => exact ih (disablePhaseStep_entries hd h)

theorem enableFold_keep {plugin k : String} {pc : PhaseConfig}
    {d : List (String × PhaseConfig)} (hl : lookupD k d = some pc)
    (hp : enabledPost plugin pc) (L : List String) :
    lookupD k (L.foldl (enablePhaseStep plugin) d) = some pc := by
  induction L generalizing d with
  | nil => exact hl
  | cons h t ih => exact ih (enablePhaseStep_keep hl hp h)

theorem disableFold_keep {plugin k : String} {pc : PhaseConfig}
    {d : List (String × PhaseConfig)} (hl : lookupD k d = some pc)
    (hp : disabledPost plugin pc) (L : List String) :
    lookupD k (L.foldl (disablePhaseStep plugin) d) = some pc := by
  induction L generalizing d with
  | nil => exact hl
  | cons h t ih => exact ih (disablePhaseStep_keep hl hp h)

theorem enableFold_post {plugin : String} {L : List String}
    {d : List (String × PhaseConfig)}
    (hc : ∀ e ∈ d, (e.2.disabled.getD []).count plugin ≤ 1) :
    ∀ ph ∈ L, ∃ pc, lookupD ph (L.foldl (enablePhaseStep plugin) d) = some pc ∧
      enabledPost plugin pc := by
  induction L generalizing d with
  | nil =>
    intro ph h
    cases h
  | cons h t ih =>
    intro ph hm
    rcases List.mem_cons.mp hm with rfl | hm2
    · obtain ⟨pc, hlk, hpost⟩ := enablePhaseStep_post hc ph
      exact ⟨pc, enableFold_keep hlk hpost t, hpost⟩
    · exact ih (enablePhaseStep_count hc h) ph hm2

theorem disableFold_post {plugin : String} {L : List String}
    {d : List (String × PhaseConfig)}
    (hc : ∀ e ∈ d, (e.2.enabled.getD []).count plugin ≤ 1) :
    ∀ ph ∈ L, ∃ pc, lookupD ph (L.foldl (disablePhaseStep plugin) d) = some pc ∧
      disabledPost plugin pc := by
  induction L generalizing d with
  | nil =>
    intro ph h
    cases h
  | cons h t ih =>
    intro ph hm
    rcases List.mem_cons.mp hm with rfl | hm2
    · obtain ⟨pc, hlk, hpost⟩ := disablePhaseStep_post hc ph
      exact ⟨pc, disableFold_keep hlk hpost t, hpost⟩
    · exact ih (disablePhaseStep_count hc h) ph hm2

theorem enableFold_id {plugin : String} {L : List String}
    {d : List (String × PhaseConfig)}
    (hpost : ∀ ph ∈ L, ∃ pc, lookupD ph d = some pc ∧ enabledPost plugin pc) :
    L.foldl (enablePhaseStep plugin) d = d := by
  induction L with
  | nil => rfl
  | cons h t ih =>
    obtain ⟨pc, hl, hp⟩ := hpost h (List.mem_cons_self _ _)
    have hstep : enablePhaseStep plugin d h = d := by
      rw [enablePhaseStep_some hl]
      exact modifyD_eq_self _ hl (enableInPhase_id hp)
    calc (h :: t).foldl (enablePhaseStep plugin) d
        = t.foldl (enablePhaseStep plugin) (enablePhaseStep plugin d h) := rfl
      _ = t.foldl (enablePhaseStep plugin) d := by rw [hstep]
      _ = d := ih (fun ph hm => hpost ph (List.mem_cons_of_mem _ hm))

theorem enableFold_idem {plugin : String} {phases : List String}
    {d0 : List (String × PhaseConfig)}
    (hc : ∀ e ∈ d0, (e.2.disabled.getD []).count plugin ≤ 1) :
    phases.foldl (enablePhaseStep plugin) (phases.foldl (enablePhaseStep plugin) d0)
      = phases.foldl (enablePhaseStep plugin) d0 :=
  enableFold_id (enableFold_post hc)

theorem enable_mut_eq_none {V : Type} {plugin : String} {phases : List String}
    {doc : ConfigDocument V} (hp : doc.profiles = none) :
    enable_mut plugin phases doc =
      Except.ok ⟨some [⟨some "rescheduler-scheduler",
        some (phases.foldl (enablePhaseStep plugin) []), none⟩]⟩ := by
  simp [enable_mut, hp, defaultProfilePlugins]

theorem enable_mut_eq_empty {V : Type} {plugin : String} {phases : List String}
    {doc : ConfigDocument V} (hp : doc.profiles = some []) :
    enable_mut plugin phases doc = Except.error MErr.indexError := by
  simp [enable_mut, hp]

theorem enable_mut_eq_cons {V : Type} {plugin : String} {phases : List String}
    {doc : ConfigDocument V} {p0 : Profile V} {rest : List (Profile V)}
    (hp : doc.profiles = some (p0 :: rest)) :
    enable_mut plugin phases doc =
      Except.ok ⟨some ({ p0 with plugins := some (phases.foldl (enablePhaseStep plugin) (p0.plugins.getD [])) } :: rest)⟩ := by
  simp [enable_mut, hp]

theorem disable_mut_eq_none {V : Type} {plugin : String} {phases : List String}
    {doc : ConfigDocument V} (hp : doc.profiles = none) :
    disable_mut plugin phases doc =
      Except.ok ⟨some [⟨some "rescheduler-scheduler",
        some (phases.foldl (disablePhaseStep plugin) []), none⟩]⟩ := by
  simp [disable_mut, hp, defaultProfilePlugins]

theorem disable_mut_eq_empty {V : Type} {plugin : String} {phases : List String}
    {doc : ConfigDocument V} (hp : doc.profiles = some []) :
    disable_mut plugin phases doc = Except.error MErr.indexError := by
  simp [disable_mut, hp]

theorem disable_mut_eq_cons {V : Type} {plugin : String} {phases : List String}
    {doc : ConfigDocument V} {p0 : Profile V} {rest : List (Profile V)}
    (hp : doc.profiles = some (p0 :: rest)) :
    disable_mut plugin phases doc =
      Except.ok ⟨some ({ p0 with plugins := some (phases.foldl (disablePhaseStep plugin) (p0.plugins.getD [])) } :: rest)⟩ := by
  simp [disable_mut, hp]

theorem update_mut_eq_none {V : Type} {plugin key : String} {v : V}
    {doc : ConfigDocument V} (hp : doc.profiles = none) :
    update_plugin_config_mut plugin key v doc =
      Except.ok ⟨some [⟨some "rescheduler-scheduler", none,
        some (updatePCList plugin key v [])⟩]⟩ := by
  simp [update_plugin_config_mut, hp, defaultProfileConfig]

theorem update_mut_eq_empty {V : Type} {plugin key : String} {v : V}
    {doc : ConfigDocument V} (hp : doc.profiles = some []) :
    update_plugin_config_mut plugin key v doc = Except.error MErr.indexError := by
  simp [update_plugin_config_mut, hp]

theorem update_mut_eq_cons {V : Type} {plugin key : String} {v : V}
    {doc : ConfigDocument V} {p0 : Profile V} {rest : List (Profile V)}
    (hp : doc.profiles = some (p0 :: rest)) :
    update_plugin_config_mut plugin key v doc =
      Except.ok ⟨some ({ p0 with pluginConfig := some (updatePCList plugin key v (p0.pluginConfig.getD [])) } :: rest)⟩ := by
  simp [update_plugin_config_mut, hp]

theorem enable_mut_docInv {V : Type} {plugin : String} {phases : List String}
    {doc doc2 : ConfigDocument V} (hinv : docInv doc)
    (h : enable_mut plugin phases doc = Except.ok doc2) : docInv doc2 := by
  cases hp : doc.profiles with
  | none =>
    rw [enable_mut_eq_none hp, Except.ok.injEq] at h
    subst h
    intro p hmem
    simp only [Option.getD_some, List.mem_singleton] at hmem
    subst hmem
    intro e he
    exact enableFold_entries (fun e2 he2 => absurd he2 (List.not_mem_nil e2)) e he
  | some l =>
    cases l with
    | nil =>
      rw [enable_mut_eq_empty hp] at h
      exact Except.noConfusion h
    | cons p0 rest =>
      rw [enable_mut_eq_cons hp, Except.ok.injEq] at h
      subst h
      have hp0 : profileInv p0 := hinv p0 (by rw [hp]; exact List.mem_cons_self _ _)
      intro p hmem
      simp only [Option.getD_some, List.mem_cons] at hmem
      rcases hmem with rfl | hmem2
      · intro e he
        exact enableFold_entries hp0 e he
      · exact hinv p (by rw [hp]; exact List.mem_cons_of_mem _ hmem2)

theorem disable_mut_docInv {V : Type} {plugin : String} {phases : List String}
    {doc doc2 : ConfigDocument V} (hinv : docInv doc)
    (h : disable_mut plugin phases doc = Except.ok doc2) : docInv doc2 := by
  cases hp : doc.profiles with
  | none =>
    rw [disable_mut_eq_none hp, Except.ok.injEq] at h
    subst h
    intro p hmem
    simp only [Option.getD_some, List.mem_singleton] at hmem
    subst hmem
    intro e he
    exact disableFold_entries (fun e2 he2 => absurd he2 (List.not_mem_nil e2)) e he
  | some l =>
    cases l with
    | nil =>
      rw [disable_mut_eq_empty hp] at h
      exact Except.noConfusion h
    | cons p0 rest =>
      rw [disable_mut_eq_cons hp, Except.ok.injEq] at h
      subst h
      have hp0 : profileInv p0 := hinv p0 (by rw [hp]; exact List.mem_cons_self _ _)
      intro p hmem
      simp only [Option.getD_some, List.mem_cons] at hmem
      rcases hmem with rfl | hmem2
      · intro e he
        exact disableFold_entries hp0 e he
      · exact hinv p (by rw [hp]; exact List.mem_cons_of_mem _ hmem2)

theorem runMutation_store_doc {V : Type} (st : Store V)
    (f : ConfigDocument V → Except MErr (ConfigDocument V)) :
    (runMutation st f).store.doc = st.doc ∨
    ∃ d2, f st.doc = Except.ok d2 ∧ (runMutation st f).store.doc = d2 := by
  cases h : f st.doc with
  | error e =>
    left
    simp [runMutation, h]
  | ok d2 =>
    cases hs : st.saveOk with
    | false =>
      left
      simp [runMutation, h, update_config, backup_config, hs]
    | true =>
      right
      exact ⟨d2, rfl, by simp [runMutation, h, update_config, backup_config, hs]⟩

theorem applyOp_docInv {V : Type} {doc : ConfigDocument V} (hinv : docInv doc) (op : Op) :
    docInv (applyOp doc op) := by
  cases op with
  | enable p l =>
    show docInv (enable_plugin_run (allOkStore doc) p l).store.doc
    by_cases hp : p ∈ SUPPORTED_PLUGINS
    · cases hv : validatePhases l with
      | some ph => simpa [enable_plugin_run, hp, hv] using hinv
      | none =>
        have hrun : enable_plugin_run (allOkStore doc) p l =
            runMutation (allOkStore doc) (enable_mut p l) := by
          simp [enable_plugin_run, hp, hv]
        rw [hrun]
        rcases runMutation_store_doc (allOkStore doc) (enable_mut p l) with hcase | ⟨d2, hmut, hdoc⟩
        · rw [hcase]
          exact hinv
        · rw [hdoc]
          exact enable_mut_docInv hinv hmut
    · simpa [enable_plugin_run, hp] using hinv
  | disable p l =>
    show docInv (disable_plugin_run (allOkStore doc) p l).store.doc
    by_cases hp : p ∈ SUPPORTED_PLUGINS
    · cases hv : validatePhases l with
      | some ph => simpa [disable_plugin_run, hp, hv] using hinv
      | none =>
        have hrun : disable_plugin_run (allOkStore doc) p l =
            runMutation (allOkStore doc) (disable_mut p l) := by
          simp [disable_plugin_run, hp, hv]
        rw [hrun]
        rcases runMutation_store_doc (allOkStore doc) (disable_mut p l) with hcase | ⟨d2, hmut, hdoc⟩
        · rw [hcase]
          exact hinv
        · rw [hdoc]
          exact disable_mut_docInv hinv hmut
    · simpa [disable_plugin_run, hp] using hinv

theorem applyOps_docInv {V : Type} {doc : ConfigDocument V} (hinv : docInv doc)
    (ops : List Op) : docInv (applyOps doc ops) := by
  induction ops generalizing doc with
  | nil => exact hinv
  | cons o t ih => exact ih (applyOp_docInv hinv o)

theorem docMutEx_of_docInv {V : Type} {doc : ConfigDocument V} (h : docInv doc) :
    docMutEx doc :=
  fun p hp e he => (h p hp e he).2.2

theorem phaseEnabled_eq {V : Type} {doc : ConfigDocument V} {p0 : Profile V}
    {rest : List (Profile V)} {ph : String} {pc : PhaseConfig}
    (hp : doc.profiles = some (p0 :: rest))
    (hl : lookupD ph (p0.plugins.getD []) = some pc) :
    phaseEnabled doc ph = pc.enabled.getD [] := by
  simp [phaseEnabled, firstProfile, hp, hl]

theorem phaseDisabled_eq {V : Type} {doc : ConfigDocument V} {p0 : Profile V}
    {rest : List (Profile V)} {ph : String} {pc : PhaseConfig}
    (hp : doc.profiles = some (p0 :: rest))
    (hl : lookupD ph (p0.plugins.getD []) = some pc) :
    phaseDisabled doc ph = pc.disabled.getD [] := by
  simp [phaseDisabled, firstProfile, hp, hl]

/-- Claim C1 (amended): after any sequence of enable and disable requests
with valid plugin names and phase lists served against a healthy store, no
plugin name appears in both the enabled and the disabled list of any phase
of any profile, provided the initial document satisfies the mutual
exclusion invariant and additionally has duplicate-free enabled and
disabled lists in every phase of every profile. -/
theorem spec_c1_mutual_exclusion {V : Type} {doc : ConfigDocument V} (ops : List Op)
    (hinv : docInv doc) (_hval : ∀ op ∈ ops, isValidOp op = true) :
    docMutEx (applyOps doc ops) :=
  docMutEx_of_docInv (applyOps_docInv hinv ops)

/-- Witness for C1: a concrete healthy run of three valid requests from
the empty document keeps mutual exclusion. -/
theorem spec_c1_mutual_exclusion_witness :
    docInv emptyDoc ∧ (∀ op ∈ sampleOps, isValidOp op = true) ∧
    docMutEx (applyOps emptyDoc sampleOps) :=
  ⟨by decide, by decide, spec_c1_mutual_exclusion sampleOps (by decide) (by decide)⟩

/-- Counterexample for C1 as stated: a document satisfying the mutual
exclusion invariant alone (its disabled list holds QoS twice, its enabled
list is empty, so the two are disjoint) ends up with QoS in both lists of
the filter phase after one valid enable request, because the code removes
only the first occurrence from the disabled list. -/
theorem spec_c1_counterexample :
    docMutEx dupDisabledDoc ∧ isValidOp (Op.enable "QoS" ["filter"]) = true ∧
    ¬ docMutEx (applyOps dupDisabledDoc [Op.enable "QoS" ["filter"]]) := by
  refine ⟨by decide, by decide, by decide⟩

/-- Claim C4 (amended): after a successful enable mutation with a
supported plugin and supported phases, the plugin is in the enabled list
of every requested phase and absent from its disabled list, provided the
plugin occurred at most once in each disabled list of the first profile of
the initial document. -/
theorem spec_c4_enable_postcondition {V : Type} (plugin : String)
    (phases : List String) (doc doc2 : ConfigDocument V)
    (_hplugin : plugin ∈ SUPPORTED_PLUGINS)
    (_hphases : ∀ ph ∈ phases, ph ∈ PLUGIN_PHASES)
    (hcount : ∀ p ∈ doc.profiles.getD [], ∀ e ∈ p.plugins.getD [],
      (e.2.disabled.getD []).count plugin ≤ 1)
    (h : enable_mut plugin phases doc = Except.ok doc2) :
    ∀ ph ∈ phases, plugin ∈ phaseEnabled doc2 ph ∧ plugin ∉ phaseDisabled doc2 ph := by
  cases hp : doc.profiles with
  | none =>
    rw [enable_mut_eq_none hp, Except.ok.injEq] at h
    subst h
    intro ph hm
    obtain ⟨pc, hlk, en, dis, hpc, hin, hout⟩ :=
      enableFold_post (fun e2 he2 => absurd he2 (List.not_mem_nil e2)) ph hm
    constructor
    · rw [phaseEnabled_eq rfl hlk, hpc]
      exact hin
    · rw [phaseDisabled_eq rfl hlk, hpc]
      exact hout
  | some l =>
    cases l with
    | nil =>
      rw [enable_mut_eq_empty hp] at h
      exact Except.noConfusion h
    | cons p0 rest =>
      rw [enable_mut_eq_cons hp, Except.ok.injEq] at h
      subst h
      have hc0 : ∀ e ∈ p0.plugins.getD [], (e.2.disabled.getD []).count plugin ≤ 1 :=
        hcount p0 (by rw [hp]; exact List.mem_cons_self _ _)
      intro ph hm
      obtain ⟨pc, hlk, en, dis, hpc, hin, hout⟩ := enableFold_post hc0 ph hm
      constructor
      · rw [phaseEnabled_eq rfl hlk, hpc]
        exact hin
      · rw [phaseDisabled_eq rfl hlk, hpc]
        exact hout

/-- Witness for C4: enabling QoS in filter and score from the empty
document puts QoS in both enabled lists and in neither disabled list. -/
theorem spec_c4_enable_postcondition_witness :
    enable_mut "QoS" ["filter", "score"] emptyDoc = Except.ok qosEnabledDoc ∧
    ∀ ph ∈ ["filter", "score"],
      "QoS" ∈ phaseEnabled qosEnabledDoc ph ∧ "QoS" ∉ phaseDisabled qosEnabledDoc ph :=
  ⟨by decide, spec_c4_enable_postcondition "QoS" ["filter", "score"] emptyDoc
    qosEnabledDoc (by decide) (by decide) (by decide) (by decide)⟩

/-- Counterexample for C4 as stated: on a document whose filter phase
holds QoS twice in its disabled list, a valid enable of QoS leaves QoS in
the disabled list, since only the first occurrence is removed. -/
theorem spec_c4_counterexample :
    "QoS" ∈ SUPPORTED_PLUGINS ∧ "filter" ∈ PLUGIN_PHASES ∧
    "QoS" ∈ phaseEnabled (applyOp dupDisabledDoc (Op.enable "QoS" ["filter"])) "filter" ∧
    "QoS" ∈ phaseDisabled (applyOp dupDisabledDoc (Op.enable "QoS" ["filter"])) "filter" := by
  refine ⟨by decide, by decide, by decide, by decide⟩

/-- Claim C5 (amended): after a successful disable mutation with a
supported plugin and supported phases, the plugin is in the disabled list
of every requested phase and absent from its enabled list, provided the
plugin occurred at most once in each enabled list of the first profile of
the initial document. -/
theorem spec_c5_disable_postcondition {V : Type} (plugin : String)
    (phases : List String) (doc doc2 : ConfigDocument V)
    (_hplugin : plugin ∈ SUPPORTED_PLUGINS)
    (_hphases : ∀ ph ∈ phases, ph ∈ PLUGIN_PHASES)
    (hcount : ∀ p ∈ doc.profiles.getD [], ∀ e ∈ p.plugins.getD [],
      (e.2.enabled.getD []).count plugin ≤ 1)
    (h : disable_mut plugin phases doc = Except.ok doc2) :
    ∀ ph ∈ phases, plugin ∈ phaseDisabled doc2 ph ∧ plugin ∉ phaseEnabled doc2 ph := by
  cases hp : doc.profiles with
  | none =>
    rw [disable_mut_eq_none hp, Except.ok.injEq] at h
    subst h
    intro ph hm
    obtain ⟨pc, hlk, en, dis, hpc, hin, hout⟩ :=
      disableFold_post (fun e2 he2 => absurd he2 (List.not_mem_nil e2)) ph hm
    constructor
    · rw [phaseDisabled_eq rfl hlk, hpc]
      exact hout
    · rw [phaseEnabled_eq rfl hlk, hpc]
      exact hin
  | some l =>
    cases l with
    | nil =>
      rw [disable_mut_eq_empty hp] at h
      exact Except.noConfusion h
    | cons p0 rest =>
      rw [disable_mut_eq_cons hp, Except.ok.injEq] at h
      subst h
      have hc0 : ∀ e ∈ p0.plugins.getD [], (e.2.enabled.getD []).count plugin ≤ 1 :=
        hcount p0 (by rw [hp]; exact List.mem_cons_self _ _)
      intro ph hm
      obtain ⟨pc, hlk, en, dis, hpc, hin, hout⟩ := disableFold_post hc0 ph hm
      constructor
      · rw [phaseDisabled_eq rfl hlk, hpc]
        exact hout
      · rw [phaseEnabled_eq rfl hlk, hpc]
        exact hin

/-- Witness for C5: disabling QoS in filter and score from the empty
document puts QoS in both disabled lists and in neither enabled list. -/
theorem spec_c5_disable_postcondition_witness :
    disable_mut "QoS" ["filter", "score"] emptyDoc = Except.ok qosDisabledDoc ∧
    ∀ ph ∈ ["filter", "score"],
      "QoS" ∈ phaseDisabled qosDisabledDoc ph ∧ "QoS" ∉ phaseEnabled qosDisabledDoc ph :=
  ⟨by decide, spec_c5_disable_postcondition "QoS" ["filter", "score"] emptyDoc
    qosDisabledDoc (by decide) (by decide) (by decide) (by decide)⟩

/-- Counterexample for C5 as stated: on a document whose filter phase
holds QoS twice in its enabled list, a valid disable of QoS leaves QoS in
the enabled list, since only the first occurrence is removed. -/
theorem spec_c5_counterexample :
    "QoS" ∈ SUPPORTED_PLUGINS ∧ "filter" ∈ PLUGIN_PHASES ∧
    "QoS" ∈ phaseDisabled (applyOp dupEnabledDoc (Op.disable "QoS" ["filter"])) "filter" ∧
    "QoS" ∈ phaseEnabled (applyOp dupEnabledDoc (Op.disable "QoS" ["filter"])) "filter" := by
  refine ⟨by decide, by decide, by decide, by decide⟩

theorem enable_mut_twice_none {V : Type} {plugin : String} {phases : List String}
    {doc : ConfigDocument V} (hp : doc.profiles = none) :
    ∃ d1, enable_mut plugin phases doc = Except.ok d1 ∧
      enable_mut plugin phases d1 = Except.ok d1 := by
  refine ⟨_, enable_mut_eq_none hp, ?_⟩
  rw [enable_mut_eq_cons rfl, Except.ok.injEq]
  have hgd : ((⟨some "rescheduler-scheduler",
      some (phases.foldl (enablePhaseStep plugin) []), none⟩ : Profile V)).plugins.getD
        ([] : List (String × PhaseConfig)) = phases.foldl (enablePhaseStep plugin) [] := rfl
  rw [hgd, enableFold_idem (fun e2 he2 => absurd he2 (List.not_mem_nil e2))]

theorem enable_mut_twice_cons {V : Type} {plugin : String} {phases : List String}
    {doc : ConfigDocument V} {p0 : Profile V} {rest : List (Profile V)}
    (hp : doc.profiles = some (p0 :: rest))
    (hc : ∀ e ∈ p0.plugins.getD [], (e.2.disabled.getD []).count plugin ≤ 1) :
    ∃ d1, enable_mut plugin phases doc = Except.ok d1 ∧
      enable_mut plugin phases d1 = Except.ok d1 := by
  refine ⟨_, enable_mut_eq_cons hp, ?_⟩
  rw [enable_mut_eq_cons rfl, Except.ok.injEq]
  have hgd : ({ p0 with plugins := some (phases.foldl (enablePhaseStep plugin) (p0.plugins.getD [])) } : Profile V).plugins.getD
      ([] : List (String × PhaseConfig)) =
      phases.foldl (enablePhaseStep plugin) (p0.plugins.getD []) := rfl
  rw [hgd, enableFold_idem hc]

/-- Claim C7 (amended): enabling a supported plugin for supported phases
is idempotent on the in-memory document, provided the plugin occurred at
most once in each disabled list of the first profile of the initial
document. -/
theorem spec_c7_enable_idempotent {V : Type} (plugin : String) (phases : List String)
    (doc d1 : ConfigDocument V) (_hplugin : plugin ∈ SUPPORTED_PLUGINS)
    (_hphases : ∀ ph ∈ phases, ph ∈ PLUGIN_PHASES)
    (hcount : ∀ p ∈ doc.profiles.getD [], ∀ e ∈ p.plugins.getD [],
      (e.2.disabled.getD []).count plugin ≤ 1)
    (h : enable_mut plugin phases doc = Except.ok d1) :
    enable_mut plugin phases d1 = Except.ok d1 := by
  cases hp : doc.profiles with
  | none =>
    obtain ⟨d0, h0, h00⟩ := @enable_mut_twice_none V plugin phases doc hp
    rw [h0, Except.ok.injEq] at h
    subst h
    exact h00
  | some l =>
    cases l with
    | nil =>
      rw [enable_mut_eq_empty hp] at h
      exact Except.noConfusion h
    | cons p0 rest =>
      have hc0 : ∀ e ∈ p0.plugins.getD [], (e.2.disabled.getD []).count plugin ≤ 1 :=
        hcount p0 (by rw [hp]; exact List.mem_cons_self _ _)
      obtain ⟨d0, h0, h00⟩ := @enable_mut_twice_cons V plugin phases doc p0 rest hp hc0
      rw [h0, Except.ok.injEq] at h
      subst h
      exact h00

/-- Witness for C7: enabling QoS twice from the empty document produces
the same document as enabling it once. -/
theorem spec_c7_enable_idempotent_witness :
    enable_mut "QoS" ["filter", "score"] emptyDoc = Except.ok qosEnabledDoc ∧
    enable_mut "QoS" ["filter", "score"] qosEnabledDoc = Except.ok qosEnabledDoc :=
  ⟨by decide, spec_c7_enable_idempotent "QoS" ["filter", "score"] emptyDoc
    qosEnabledDoc (by decide) (by decide) (by decide) (by decide)⟩

/-- Counterexample for C7 as stated: on a document whose filter phase
holds QoS twice in its disabled list, the first valid enable removes one
occurrence and the second removes the other, so applying the mutation
twice differs from applying it once. -/
theorem spec_c7_counterexample :
    "QoS" ∈ SUPPORTED_PLUGINS ∧ "filter" ∈ PLUGIN_PHASES ∧
    (enable_mut "QoS" ["filter"] dupDisabledDoc).bind (enable_mut "QoS" ["filter"]) ≠
      enable_mut "QoS" ["filter"] dupDisabledDoc := by
  refine ⟨by decide, by decide, by decide⟩

theorem enable_run_invalid {V : Type} (st : Store V) {plugin : String}
    {phases : List String}
    (h : plugin ∉ SUPPORTED_PLUGINS ∨ ∃ ph ∈ phases, ph ∉ PLUGIN_PHASES) :
    ∃ e, isValidationError e = true ∧
      enable_plugin_run st plugin phases = ⟨Except.error e, st, []⟩ := by
  by_cases hp : plugin ∈ SUPPORTED_PLUGINS
  · rcases h with h1 | ⟨ph, hm, hn⟩
    · exact absurd hp h1
    · obtain ⟨ph2, hv⟩ := validatePhases_some hm hn
      exact ⟨MErr.valueErrorPhase ph2, rfl, by simp [enable_plugin_run, hp, hv]⟩
  · exact ⟨MErr.valueErrorPlugin plugin, rfl, by simp [enable_plugin_run, hp]⟩

theorem disable_run_invalid {V : Type} (st : Store V) {plugin : String}
    {phases : List String}
    (h : plugin ∉ SUPPORTED_PLUGINS ∨ ∃ ph ∈ phases, ph ∉ PLUGIN_PHASES) :
    ∃ e, isValidationError e = true ∧
      disable_plugin_run st plugin phases = ⟨Except.error e, st, []⟩ := by
  by_cases hp : plugin ∈ SUPPORTED_PLUGINS
  · rcases h with h1 | ⟨ph, hm, hn⟩
    · exact absurd hp h1
    · obtain ⟨ph2, hv⟩ := validatePhases_some hm hn
      exact ⟨MErr.valueErrorPhase ph2, rfl, by simp [disable_plugin_run, hp, hv]⟩
  · exact ⟨MErr.valueErrorPlugin plugin, rfl, by simp [disable_plugin_run, hp]⟩

theorem update_run_reads {V : Type} (st : Store V) (plugin key : String) (v : V) :
    Event.getConfig ∈ (update_plugin_config_run st plugin key v).events := by
  unfold update_plugin_config_run runMutation
  cases h : update_plugin_config_mut plugin key v st.doc with
  | error e => simp
  | ok d2 =>
    simp only []
    split <;> simp

/-- Claim C6: an enable or disable request with an unsupported plugin name
or any unsupported phase in its list raises a ValueError naming a
validation failure, leaves the store untouched, and performs no external
call at all, so no partial mutation can occur. -/
theorem spec_c6_validation_failure {V : Type} (st : Store V) (plugin : String)
    (phases : List String)
    (h : plugin ∉ SUPPORTED_PLUGINS ∨ ∃ ph ∈ phases, ph ∉ PLUGIN_PHASES) :
    (∃ e, isValidationError e = true ∧
      enable_plugin_run st plugin phases = ⟨Except.error e, st, []⟩) ∧
    (∃ e, isValidationError e = true ∧
      disable_plugin_run st plugin phases = ⟨Except.error e, st, []⟩) :=
  ⟨enable_run_invalid st h, disable_run_invalid st h⟩

/-- Witness for C6: the unsupported name NotAPlugin is rejected by both
requests against a healthy store, which is left unchanged. -/
theorem spec_c6_validation_failure_witness :
    ("NotAPlugin" ∉ SUPPORTED_PLUGINS ∨ ∃ ph ∈ ["filter"], ph ∉ PLUGIN_PHASES) ∧
    ((∃ e, isValidationError e = true ∧
      enable_plugin_run okStore "NotAPlugin" ["filter"] = ⟨Except.error e, okStore, []⟩) ∧
     (∃ e, isValidationError e = true ∧
      disable_plugin_run okStore "NotAPlugin" ["filter"] = ⟨Except.error e, okStore, []⟩)) :=
  ⟨by decide, spec_c6_validation_failure okStore "NotAPlugin" ["filter"] (by decide)⟩

/-- Claim C2 (amended): enable and disable requests with an invalid plugin
or phase fail before any external call, leaving the store untouched with
an empty event trace; the argument update request, however, performs no
catalog validation and always reads the configuration document. -/
theorem spec_c2_validation_before_read {V : Type} (st : Store V) (plugin key : String)
    (phases : List String) (v : V)
    (h : plugin ∉ SUPPORTED_PLUGINS ∨ ∃ ph ∈ phases, ph ∉ PLUGIN_PHASES) :
    ((enable_plugin_run st plugin phases).events = [] ∧
     (enable_plugin_run st plugin phases).store = st ∧
     (disable_plugin_run st plugin phases).events = [] ∧
     (disable_plugin_run st plugin phases).store = st) ∧
    Event.getConfig ∈ (update_plugin_config_run st plugin key v).events := by
  obtain ⟨e1, _, he1⟩ := enable_run_invalid st h
  obtain ⟨e2, _, he2⟩ := disable_run_invalid st h
  exact ⟨⟨by rw [he1], by rw [he1], by rw [he2], by rw [he2]⟩,
    update_run_reads st plugin key v⟩

/-- Witness for C2 (amended) at the unsupported name NotAPlugin. -/
theorem spec_c2_validation_before_read_witness :
    ("NotAPlugin" ∉ SUPPORTED_PLUGINS ∨ ∃ ph ∈ ["filter"], ph ∉ PLUGIN_PHASES) ∧
    (((enable_plugin_run okStore "NotAPlugin" ["filter"]).events = [] ∧
      (enable_plugin_run okStore "NotAPlugin" ["filter"]).store = okStore ∧
      (disable_plugin_run okStore "NotAPlugin" ["filter"]).events = [] ∧
      (disable_plugin_run okStore "NotAPlugin" ["filter"]).store = okStore) ∧
     Event.getConfig ∈ (update_plugin_config_run okStore "NotAPlugin" "k" (7 : Int)).events) :=
  ⟨by decide,
   spec_c2_validation_before_read okStore "NotAPlugin" "k" ["filter"] (7 : Int) (by decide)⟩

/-- Counterexample for C2 as stated: the argument update with the
unsupported name NotAPlugin is not rejected; it reads the document,
mutates it (creating a pluginConfig entry for the unknown name), and
reports success. -/
theorem spec_c2_counterexample :
    ("NotAPlugin" ∉ SUPPORTED_PLUGINS) ∧
    (update_plugin_config_run okStore "NotAPlugin" "k" (7 : Int)).outcome =
      Except.ok "success" ∧
    (update_plugin_config_run okStore "NotAPlugin" "k" (7 : Int)).store.doc ≠
      okStore.doc ∧
    Event.getConfig ∈ (update_plugin_config_run okStore "NotAPlugin" "k" (7 : Int)).events := by
  refine ⟨by decide, by decide, by decide, by decide⟩

/-- Claim C3 (amended): when the in-memory mutation succeeds on a valid
request, a successful save yields the success status and the mutated
document persisted regardless of the restart result (no rollback), while
a failed save yields the error status with the document unchanged; the
restart failure itself is not reflected in the returned status, which
coincides with the full-success status. -/
theorem spec_c3_outcome {V : Type} (st : Store V) (plugin : String)
    (phases : List String) (d1 : ConfigDocument V)
    (hplugin : plugin ∈ SUPPORTED_PLUGINS)
    (hphases : ∀ ph ∈ phases, ph ∈ PLUGIN_PHASES)
    (hmut : enable_mut plugin phases st.doc = Except.ok d1) :
    (st.saveOk = true →
      (enable_plugin_run st plugin phases).outcome = Except.ok "success" ∧
      (enable_plugin_run st plugin phases).store.doc = d1) ∧
    (st.saveOk = false →
      (enable_plugin_run st plugin phases).outcome = Except.ok "error" ∧
      (enable_plugin_run st plugin phases).store.doc = st.doc) := by
  have hrun : enable_plugin_run st plugin phases =
      runMutation st (enable_mut plugin phases) := by
    simp [enable_plugin_run, hplugin, validatePhases_none hphases]
  constructor
  · intro hs
    rw [hrun]
    simp [runMutation, hmut, update_config, backup_config, hs]
  · intro hs
    rw [hrun]
    simp [runMutation, hmut, update_config, backup_config, hs]

/-- Witness for C3 (amended): with a store whose save succeeds and whose
restart fails, enabling QoS reports success and the mutated document is
persisted. -/
theorem spec_c3_outcome_witness :
    ("QoS" ∈ SUPPORTED_PLUGINS) ∧
    (enable_mut "QoS" ["filter", "score"] restartFailStore.doc = Except.ok qosEnabledDoc) ∧
    ((enable_plugin_run restartFailStore "QoS" ["filter", "score"]).outcome =
       Except.ok "success" ∧
     (enable_plugin_run restartFailStore "QoS" ["filter", "score"]).store.doc =
       qosEnabledDoc) :=
  ⟨by decide, by decide,
   (spec_c3_outcome restartFailStore "QoS" ["filter", "score"] qosEnabledDoc
     (by decide) (by decide) (by decide)).1 rfl⟩

/-- Counterexample for C3 as stated: when the save succeeds but the
restart fails, the returned status is the plain success string, identical
to the status of a run in which the restart also succeeds; no dedicated
partial-success outcome exists in the code. -/
theorem spec_c3_counterexample :
    restartFailStore.saveOk = true ∧ restartFailStore.restartOk = false ∧
    (enable_plugin_run restartFailStore "QoS" ["filter"]).outcome = Except.ok "success" ∧
    (enable_plugin_run restartFailStore "QoS" ["filter"]).outcome =
      (enable_plugin_run okStore "QoS" ["filter"]).outcome := by
  refine ⟨by decide, by decide, by decide, by decide⟩

/-- Claim C9: update_config always makes the backup attempt before the
patch, and neither its returned success flag nor the document it persists
depends on whether the backup attempt succeeded. -/
theorem spec_c9_backup_before_save {V : Type} (st : Store V)
    (newDoc : ConfigDocument V) (b : Bool) :
    (update_config st newDoc).events = [Event.backupAttempt st.backupOk, Event.put] ∧
    (update_config { st with backupOk := b } newDoc).ok = (update_config st newDoc).ok ∧
    (update_config { st with backupOk := b } newDoc).store.doc =
      (update_config st newDoc).store.doc := by
  cases hs : st.saveOk <;> simp [update_config, backup_config, hs]

/-- Claim C10: when the profiles key is present but bound to the empty
list, all three mutations raise IndexError after reading the document,
create no default profile, and leave the store untouched. -/
theorem spec_c10_empty_profiles {V : Type} (st : Store V) (plugin key : String)
    (phases : List String) (v : V) (hdoc : st.doc.profiles = some [])
    (hplugin : plugin ∈ SUPPORTED_PLUGINS)
    (hphases : ∀ ph ∈ phases, ph ∈ PLUGIN_PHASES) :
    enable_plugin_run st plugin phases =
      ⟨Except.error MErr.indexError, st, [Event.getConfig]⟩ ∧
    disable_plugin_run st plugin phases =
      ⟨Except.error MErr.indexError, st, [Event.getConfig]⟩ ∧
    update_plugin_config_run st plugin key v =
      ⟨Except.error MErr.indexError, st, [Event.getConfig]⟩ := by
  refine ⟨?_, ?_, ?_⟩
  · simp [enable_plugin_run, hplugin, validatePhases_none hphases, runMutation,
      enable_mut_eq_empty hdoc]
  · simp [disable_plugin_run, hplugin, validatePhases_none hphases, runMutation,
      disable_mut_eq_empty hdoc]
  · simp [update_plugin_config_run, runMutation, update_mut_eq_empty hdoc]

theorem statusConfigFoldAcc_cons_some {V : Type} {pa : PluginArgs V}
    {l : List (PluginArgs V)} {n : String} (h : pa.name = some n)
    (acc : List (String × List (String × V))) :
    statusConfigFoldAcc (pa :: l) acc =
      statusConfigFoldAcc l (insertD n (pa.args.getD []) acc) := by
  simp only [statusConfigFoldAcc, List.foldlM_cons, h]
  rfl

theorem updatePCList_nil {V : Type} (plugin key : String) (v : V) :
    updatePCList plugin key v ([] : List (PluginArgs V)) =
      [⟨some plugin, some (insertD key v [])⟩] := rfl

theorem updatePCList_cons_hit {V : Type} {pa : PluginArgs V} {l : List (PluginArgs V)}
    {plugin : String} (key : String) (v : V) (h : pa.name = some plugin) :
    updatePCList plugin key v (pa :: l) = setArg key v pa :: l := by
  simp [updatePCList, h]

theorem updatePCList_cons_miss {V : Type} {pa : PluginArgs V} {l : List (PluginArgs V)}
    {plugin : String} (key : String) (v : V) (h : ¬ pa.name = some plugin) :
    updatePCList plugin key v (pa :: l) = pa :: updatePCList plugin key v l := by
  simp [updatePCList, h]

theorem pluginCount_cons_hit {V : Type} {pa : PluginArgs V} {l : List (PluginArgs V)}
    {plugin : String} (h : pa.name = some plugin) :
    pluginCount plugin (pa :: l) = pluginCount plugin l + 1 := by
  unfold pluginCount
  rw [List.countP_cons_of_pos _ _ (by simp [h])]

theorem pluginCount_cons_miss {V : Type} {pa : PluginArgs V} {l : List (PluginArgs V)}
    {plugin : String} (h : ¬ pa.name = some plugin) :
    pluginCount plugin (pa :: l) = pluginCount plugin l := by
  unfold pluginCount
  rw [List.countP_cons_of_neg _ _ (by simp [h])]

theorem pluginCount_zero {V : Type} {plugin : String} {l : List (PluginArgs V)}
    (h : pluginCount plugin l = 0) : ∀ pa ∈ l, ¬ pa.name = some plugin := by
  intro pa hm
  have h2 := List.countP_eq_zero.mp h pa hm
  simpa using h2

theorem statusFoldAcc_skip {V : Type} {plugin : String} {l : List (PluginArgs V)}
    (hn : namesPresent l) (hnone : ∀ pa ∈ l, ¬ pa.name = some plugin) :
    ∀ acc, ∃ m, statusConfigFoldAcc l acc = Except.ok m ∧
      lookupD plugin m = lookupD plugin acc := by
  induction l with
  | nil =>
    intro acc
    exact ⟨acc, rfl, rfl⟩
  | cons pa rest ih =>
    intro acc
    obtain ⟨n, hna⟩ := Option.isSome_iff_exists.mp (hn pa (List.mem_cons_self _ _))
    have hne : n ≠ plugin := by
      intro hEq
      exact hnone pa (List.mem_cons_self _ _) (by rw [hna, hEq])
    obtain ⟨m, hm, hlk⟩ := ih (fun q hq => hn q (List.mem_cons_of_mem _ hq))
      (fun q hq => hnone q (List.mem_cons_of_mem _ hq)) (insertD n (pa.args.getD []) acc)
    refine ⟨m, ?_, ?_⟩
    · rw [statusConfigFoldAcc_cons_some hna]
      exact hm
    · rw [hlk]
      exact lookupD_insertD_ne hne _ _

theorem double_update_status {V : Type} {plugin key : String} {v1 v2 : V}
    {l : List (PluginArgs V)} (hn : namesPresent l) (hc : pluginCount plugin l ≤ 1) :
    ∀ acc, ∃ m args,
      statusConfigFoldAcc (updatePCList plugin key v2 (updatePCList plugin key v1 l)) acc =
        Except.ok m ∧
      lookupD plugin m = some args ∧ lookupD key args = some v2 := by
  induction l with
  | nil =>
    intro acc
    refine ⟨insertD plugin (insertD key v2 (insertD key v1 [])) acc,
            insertD key v2 (insertD key v1 []), ?_, ?_, ?_⟩
    · rw [updatePCList_nil, updatePCList_cons_hit key v2 rfl,
        statusConfigFoldAcc_cons_some rfl]
      rfl
    · exact lookupD_insertD_self _ _ _
    · exact lookupD_insertD_self _ _ _
  | cons pa rest ih =>
    intro acc
    by_cases hhit : pa.name = some plugin
    · have hcount1 : pluginCount plugin (pa :: rest) = pluginCount plugin rest + 1 :=
        pluginCount_cons_hit hhit
      have hrest0 : pluginCount plugin rest = 0 := by omega
      have hnone : ∀ q ∈ rest, ¬ q.name = some plugin := pluginCount_zero hrest0
      have hnr : namesPresent rest := fun q hq => hn q (List.mem_cons_of_mem _ hq)
      have hname2 : (setArg key v1 pa).name = some plugin := by
        simpa [setArg] using hhit
      have hname3 : (setArg key v2 (setArg key v1 pa)).name = some plugin := by
        simpa [setArg] using hhit
      obtain ⟨m, hm, hlk⟩ := statusFoldAcc_skip hnr hnone
        (insertD plugin ((setArg key v2 (setArg key v1 pa)).args.getD []) acc)
      refine ⟨m, (setArg key v2 (setArg key v1 pa)).args.getD [], ?_, ?_, ?_⟩
      · rw [updatePCList_cons_hit key v1 hhit, updatePCList_cons_hit key v2 hname2,
          statusConfigFoldAcc_cons_some hname3]
        exact hm
      · rw [hlk]
        exact lookupD_insertD_self _ _ _
      · exact lookupD_insertD_self key v2 ((setArg key v1 pa).args.getD [])
    · have hcr : pluginCount plugin rest ≤ 1 := by
        have hmiss := pluginCount_cons_miss (l := rest) hhit
        omega
      obtain ⟨n, hna⟩ := Option.isSome_iff_exists.mp (hn pa (List.mem_cons_self _ _))
      obtain ⟨m, args, hm, hl1, hl2⟩ := ih (fun q hq => hn q (List.mem_cons_of_mem _ hq))
        hcr (insertD n (pa.args.getD []) acc)
      refine ⟨m, args, ?_, hl1, hl2⟩
      rw [updatePCList_cons_miss key v1 hhit, updatePCList_cons_miss key v2 hhit,
        statusConfigFoldAcc_cons_some hna]
      exact hm

theorem get_plugin_status_cons {V : Type} {doc : ConfigDocument V} {p0 : Profile V}
    {rest : List (Profile V)} {m : List (String × List (String × V))}
    (hp : doc.profiles = some (p0 :: rest))
    (hm : statusConfigFoldAcc (p0.pluginConfig.getD []) [] = Except.ok m) :
    get_plugin_status doc = Except.ok
      ⟨statusPhaseFold PhaseConfig.enabled (p0.plugins.getD []),
       statusPhaseFold PhaseConfig.disabled (p0.plugins.getD []), m⟩ := by
  have hsc : statusConfigFold (p0.pluginConfig.getD []) = Except.ok m := hm
  simp [get_plugin_status, hp, hsc]

/-- Claim C8: update_plugin_config locates (or creates with empty args)
the first pluginConfig entry named by the plugin and assigns the key with
overwrite semantics; after two successive updates of the same key the
status snapshot shows the second value (last write wins), provided every
pluginConfig entry of the initial document carries a name and at most one
entry is named by the plugin, as the data model requires. -/
theorem spec_c8_set_plugin_arg {V : Type} (plugin key : String) (v1 v2 : V)
    (doc d1 d2 : ConfigDocument V)
    (hwf : ∀ p ∈ doc.profiles.getD [], namesPresent (p.pluginConfig.getD []) ∧
      pluginCount plugin (p.pluginConfig.getD []) ≤ 1)
    (h1 : update_plugin_config_mut plugin key v1 doc = Except.ok d1)
    (h2 : update_plugin_config_mut plugin key v2 d1 = Except.ok d2) :
    ∃ st args, get_plugin_status d2 = Except.ok st ∧
      lookupD plugin st.plugin_configs = some args ∧ lookupD key args = some v2 := by
  cases hp : doc.profiles with
  | none =>
    rw [update_mut_eq_none hp, Except.ok.injEq] at h1
    subst h1
    rw [update_mut_eq_cons rfl, Except.ok.injEq] at h2
    subst h2
    obtain ⟨m, args, hfold, hl1, hl2⟩ :=
      double_update_status (l := ([] : List (PluginArgs V)))
        (fun q hq => absurd hq (List.not_mem_nil q))
        (by simp [pluginCount]) []
    exact ⟨_, args, get_plugin_status_cons rfl hfold, hl1, hl2⟩
  | some pl =>
    cases pl with
    | nil =>
      rw [update_mut_eq_empty hp] at h1
      exact Except.noConfusion h1
    | cons p0 rest =>
      rw [update_mut_eq_cons hp, Except.ok.injEq] at h1
      subst h1
      rw [update_mut_eq_cons rfl, Except.ok.injEq] at h2
      subst h2
      obtain ⟨hn0, hc0⟩ := hwf p0 (by rw [hp]; exact List.mem_cons_self _ _)
      obtain ⟨m, args, hfold, hl1, hl2⟩ := double_update_status hn0 hc0 []
      exact ⟨_, args, get_plugin_status_cons rfl hfold, hl1, hl2⟩

/-- Witness for C8: the Coscheduling maxScore scenario from the
specification, with 100 overwritten by 50 and 50 visible in the status
snapshot. -/
theorem spec_c8_set_plugin_arg_witness :
    (update_plugin_config_mut "Coscheduling" "maxScore" (100 : Int) emptyDoc =
      Except.ok cosched1) ∧
    (update_plugin_config_mut "Coscheduling" "maxScore" (50 : Int) cosched1 =
      Except.ok cosched2) ∧
    (∃ st args, get_plugin_status cosched2 = Except.ok st ∧
      lookupD "Coscheduling" st.plugin_configs = some args ∧
      lookupD "maxScore" args = some (50 : Int)) :=
  ⟨by decide, by decide,
   spec_c8_set_plugin_arg "Coscheduling" "maxScore" 100 50 emptyDoc cosched1 cosched2
     (by decide) (by decide) (by decide)⟩

/-- Witness for C10 at a concrete store holding the empty profiles
list. -/
theorem spec_c10_empty_profiles_witness :
    emptyProfilesStore.doc.profiles = some [] ∧ "QoS" ∈ SUPPORTED_PLUGINS ∧
    (enable_plugin_run emptyProfilesStore "QoS" ["filter"] =
      ⟨Except.error MErr.indexError, emptyProfilesStore, [Event.getConfig]⟩ ∧
     disable_plugin_run emptyProfilesStore "QoS" ["filter"] =
      ⟨Except.error MErr.indexError, emptyProfilesStore, [Event.getConfig]⟩ ∧
     update_plugin_config_run emptyProfilesStore "QoS" "k" (7 : Int) =
      ⟨Except.error MErr.indexError, emptyProfilesStore, [Event.getConfig]⟩) :=
  ⟨rfl, by decide,
   spec_c10_empty_profiles emptyProfilesStore "QoS" "k" ["filter"] (7 : Int) rfl
     (by decide) (by decide)⟩

end PluginConfig
